import Mathlib

/-!
Verification of the Telegram-Stream streaming gateway against its design
specification.

The development shallowly embeds the relevant parts of the source:

* `bot/server/stream_routes.py` — HTTP range validation and the chunked
  range-to-remote-offset mapping of `media_streamer` / `stream_from_cache`;
* `bot/helper/media_cache.py` — the `MediaCache` class: cacheability,
  eviction score, single-flight admission, download verification and
  commit, eviction (`_ensure_space`), access recording, and the
  "next episode" predictor (`smart_pre_cache`).

Byte strings are modelled as `List Nat`, filenames as `List Char`,
timestamps as rational seconds, machine floats as exact rationals,
and the MongoDB collection as an association list.
-/

namespace TelegramStream

/-! ## HTTP range validation (`stream_routes.py`)

`media_streamer` (line 829) and `stream_from_cache` (line 585) both
reject a parsed byte range with HTTP 416 exactly when
`(until_bytes > file_size) or (from_bytes < 0) or (until_bytes < from_bytes)`.
Python integers are unbounded, so the bounds are modelled over `ℤ`. -/

/-- Range rejection test of `media_streamer`
(`stream_routes.py` line 829): the request is answered with
416 `Content-Range: bytes */size` iff this holds. -/
def mediaStreamerReject (fromBytes untilBytes fileSize : ℤ) : Prop :=
  untilBytes > fileSize ∨ fromBytes < 0 ∨ untilBytes < fromBytes

/-- Range rejection test of `stream_from_cache`
(`stream_routes.py` line 585); textually identical to the one in
`media_streamer`. -/
def streamFromCacheReject (fromBytes untilBytes fileSize : ℤ) : Prop :=
  untilBytes > fileSize ∨ fromBytes < 0 ∨ untilBytes < fromBytes

instance : ∀ a b s : ℤ, Decidable (mediaStreamerReject a b s) := fun _ _ _ =>
  inferInstanceAs (Decidable (_ ∨ _ ∨ _))

instance : ∀ a b s : ℤ, Decidable (streamFromCacheReject a b s) := fun _ _ _ =>
  inferInstanceAs (Decidable (_ ∨ _ ∨ _))

/-! ## Chunked range reader (`media_streamer`, `stream_routes.py` 839-857)

`media_streamer` clamps `until_bytes` to `file_size - 1` and computes
```
offset         = from_bytes - (from_bytes % chunk_size)
first_part_cut = from_bytes - offset
last_part_cut  = until_bytes % chunk_size + 1
part_count     = ceil(until_bytes / chunk_size) - floor(offset / chunk_size)
```
with `chunk_size = 1024 * 1024`, and hands these to
`ByteStreamer.yield_file`. -/

/-- The fixed Telegram chunk size, `chunk_size = 1024 * 1024` in
`media_streamer`. -/
def CHUNK : Nat := 1024 * 1024

/-- The `(offset, first_part_cut, last_part_cut, part_count)` quadruple
computed by `media_streamer` (`stream_routes.py` lines 839-847) for a
validated byte range, including the `min` clamp of line 839.
`ceil(u / cs)` is `(u + cs - 1) / cs` on naturals. -/
def streamMapping (fromBytes untilBytes fileSize cs : Nat) :
    Nat × Nat × Nat × Nat :=
  let u := min untilBytes (fileSize - 1)
  let offset := fromBytes - fromBytes % cs
  let firstPartCut := fromBytes - offset
  let lastPartCut := u % cs + 1
  let partCount := (u + cs - 1) / cs - offset / cs
  (offset, firstPartCut, lastPartCut, partCount)

/-- Modelled from the spec: `ByteStreamer.yield_file`
(`bot/server/custom_dl.py`) is not part of the source tree; only its
call sites are.  Spec section 4.C describes the emission: the remote
store returns the aligned chunks starting at `offset`; for
`part_count = 1` the reader emits `chunk[first_cut:last_cut]`,
otherwise it emits `chunk_0[first_cut:]`, the middle chunks in full,
and `chunk_(n-1)[:last_cut]`.  Python slice `xs[a:b]` is
`(xs.drop a).take (b - a)`. -/
def yieldFile (file : List Nat) (offset firstCut lastCut partCount cs : Nat) :
    List Nat :=
  ((List.range partCount).map (fun p =>
    let chunk := (file.drop (offset + p * cs)).take cs
    if partCount = 1 then (chunk.drop firstCut).take (lastCut - firstCut)
    else if p = 0 then chunk.drop firstCut
    else if p = partCount - 1 then chunk.take lastCut
    else chunk)).flatten

/-- The bytes a correct range response must carry:
`file[from..until]` inclusive. -/
def byteSlice (file : List Nat) (fromBytes untilBytes : Nat) : List Nat :=
  (file.drop fromBytes).take (untilBytes - fromBytes + 1)

/-! ## Eviction score (`MediaCache._calculate_score`, `media_cache.py` 301-310)

Timestamps are UTC seconds as exact rationals (Python floats are
modelled as exact arithmetic).  `K_FACTOR = 10`,
`RECENCY_DECAY_HOURS = 24`,
`hours_since_access = (now - last_access).total_seconds() / 3600`. -/

/-- `MediaCache._calculate_score`:
`access_count * K_FACTOR + max(0, 100 - hours_since_access / 24 * 10)`. -/
def calcScore (accessCount : Nat) (lastAccess now : ℚ) : ℚ :=
  accessCount * 10 + max 0 (100 - (now - lastAccess) / 3600 / 24 * 10)

/-! ## Cacheable media predicate (`media_cache.py` 19-29, 290-299) -/

/-- `CACHEABLE_MIMETYPES` (`media_cache.py` line 24). -/
def CACHEABLE_MIMETYPES : List String :=
  ["video/mp4", "video/x-matroska", "video/webm", "video/avi",
   "video/quicktime", "video/x-flv", "video/x-ms-wmv",
   "audio/mpeg", "audio/mp4", "audio/flac", "audio/wav",
   "audio/ogg", "audio/aac"]

/-- `CACHEABLE_EXTENSIONS["video"]` (`media_cache.py` line 20). -/
def videoExtensions : List (List Char) :=
  [".mp4".toList, ".mkv".toList, ".webm".toList, ".avi".toList,
   ".mov".toList, ".flv".toList, ".wmv".toList]

/-- `CACHEABLE_EXTENSIONS["audio"]` (`media_cache.py` line 21). -/
def audioExtensions : List (List Char) :=
  [".mp3".toList, ".m4a".toList, ".flac".toList, ".wav".toList,
   ".ogg".toList, ".aac".toList]

/-- Index of the last occurrence of `c`, like Python `str.rfind`
(restricted to a found index; `none` when absent). -/
def rfindIdx (c : Char) : List Char → Option Nat
  | [] => none
  | x :: xs =>
    match rfindIdx c xs with
    | some i => some (i + 1)
    | none => if x = c then some 0 else none

/-- The final path component, as `pathlib.PurePath.name` (the part
after the last slash). -/
def pathName (s : List Char) : List Char :=
  match rfindIdx (Char.ofNat 47) s with
  | some i => s.drop (i + 1)
  | none => s

/-- `pathlib.PurePath.suffix`: the substring from the last dot of the
name, empty when the dot is leading, trailing or absent. -/
def pathSuffix (s : List Char) : List Char :=
  let nm := pathName s
  match rfindIdx (Char.ofNat 46) nm with
  | some i => if 0 < i ∧ i < nm.length - 1 then nm.drop i else []
  | none => []

/-- `MediaCache._is_cacheable` (`media_cache.py` 290-299): mime in the
cacheable set, or the lower-cased filename suffix in one of the
extension lists.  `none` stands for a Python-falsy (absent or empty)
value; the `some ""` / empty-list guards mirror the truthiness tests. -/
def isCacheable (mimeType : Option String) (fileName : Option (List Char)) :
    Bool :=
  (match mimeType with
   | some m => decide (m ≠ "") && decide (m ∈ CACHEABLE_MIMETYPES)
   | none => false) ||
  (match fileName with
   | some n =>
     !n.isEmpty &&
       (decide ((pathSuffix n).map Char.toLower ∈ videoExtensions) ||
        decide ((pathSuffix n).map Char.toLower ∈ audioExtensions))
   | none => false)

/-! ## Cache index (`media_cache` MongoDB collection)

The `media_cache` collection with its unique index on `cache_key` is
modelled as an association list from cache key to document. -/

/-- A document of the `media_cache` collection, with the fields
written by the commit in `_download_file` (`media_cache.py` 215-231). -/
structure CacheEntry where
  filePath : List Char
  fileSize : Nat
  mimeType : Option String
  fileName : Option (List Char)
  accessCount : Nat
  lastAccess : ℚ
  createdAt : ℚ
  score : ℚ
deriving DecidableEq

/-- `collection.find_one` on the unique `cache_key` index. -/
def findOne (coll : List (String × CacheEntry)) (key : String) :
    Option CacheEntry :=
  (coll.find? (fun kv => kv.1 == key)).map Prod.snd

/-- `collection.update_one({"cache_key": key}, {"$set": ...}, upsert=True)`:
replace the document, or append a new one. -/
def upsertEntry (coll : List (String × CacheEntry)) (key : String)
    (e : CacheEntry) : List (String × CacheEntry) :=
  match coll with
  | [] => [(key, e)]
  | kv :: rest =>
    if kv.1 = key then (key, e) :: rest else kv :: upsertEntry rest key e

/-- `collection.delete_one({"cache_key": key})`. -/
def deleteOne (coll : List (String × CacheEntry)) (key : String) :
    List (String × CacheEntry) :=
  coll.eraseP (fun kv => kv.1 == key)

/-- `MediaCache.get_cached_path` (`media_cache.py` 312-334): look up the
key; if the document's file exists on disk return its path, otherwise
delete the stale document.  `disk` is the `os.path.exists` oracle; the
`if file_path else False` truthiness guard is the `isEmpty` test.
Returns the optional path and the possibly cleaned collection. -/
def getCachedPath (coll : List (String × CacheEntry))
    (disk : List Char → Bool) (key : String) :
    Option (List Char) × List (String × CacheEntry) :=
  match findOne coll key with
  | none => (none, coll)
  | some e =>
    if !e.filePath.isEmpty && disk e.filePath then (some e.filePath, coll)
    else (none, deleteOne coll key)

/-- `MediaCache.start_background_download` admission
(`media_cache.py` 83-124): under the download lock, skip when already
downloading, already cached (`is_cached`), or not cacheable; otherwise
insert the key into `downloading` before the download task is created.
Result: (downloading set, collection, whether a download task started). -/
def startBackgroundDownload (enabled : Bool) (downloading : List String)
    (coll : List (String × CacheEntry)) (disk : List Char → Bool)
    (key : String) (mimeType : Option String)
    (fileName : Option (List Char)) :
    List String × List (String × CacheEntry) × Bool :=
  if !enabled then (downloading, coll, false)
  else if key ∈ downloading then (downloading, coll, false)
  else
    match getCachedPath coll disk key with
    | (some _, coll2) => (downloading, coll2, false)
    | (none, coll2) =>
      if !isCacheable mimeType fileName then (downloading, coll2, false)
      else (key :: downloading, coll2, true)

/-- The document committed by `_download_file` on a verified download
(`media_cache.py` 215-231): `access_count = 1`, `last_access = now`,
`created_at = now`, `score = _calculate_score(1, now)`. -/
def commitEntry (now : ℚ) (filePath : List Char) (actualSize : Nat)
    (mimeType : Option String) (fileName : Option (List Char)) : CacheEntry :=
  { filePath := filePath, fileSize := actualSize, mimeType := mimeType,
    fileName := fileName, accessCount := 1, lastAccess := now,
    createdAt := now, score := calcScore 1 now now }

/-- The size verification of one completed download attempt
(`media_cache.py` 204-239): commit iff
`actual_size >= file_size * 0.99` (the float `0.99` modelled as the
exact rational 99/100), else delete the partial file and leave the
index unchanged.  Result: (collection, committed, partial deleted). -/
def verifyAndCommit (coll : List (String × CacheEntry)) (key : String)
    (filePath : List Char) (actualSize fileSize : Nat)
    (mimeType : Option String) (fileName : Option (List Char)) (now : ℚ) :
    List (String × CacheEntry) × Bool × Bool :=
  if (fileSize : ℚ) * (99 / 100) ≤ (actualSize : ℚ) then
    (upsertEntry coll key (commitEntry now filePath actualSize mimeType fileName),
     true, false)
  else (coll, false, true)

/-- The document state `record_access` leaves behind for a found key:
`access_count` incremented, `last_access := now`
(the `find_one_and_update` at line 345), then the score recomputed from
the incremented count (the `update_one` at line 369). -/
def bumpEntry (e : CacheEntry) (now : ℚ) : CacheEntry :=
  { e with accessCount := e.accessCount + 1, lastAccess := now,
           score := calcScore (e.accessCount + 1) now now }

/-- `MediaCache.record_access` (`media_cache.py` 340-372):
`find_one_and_update` increments `access_count` and sets `last_access`
(creating nothing when the key is absent, since `upsert` is not set);
when a document was found, a pre-cache task is dispatched if its
`file_name` is truthy, and a second update stores
`_calculate_score(access_count + 1, now)`.  Result: (collection,
whether a predictor task was dispatched). -/
def recordAccess (coll : List (String × CacheEntry)) (key : String)
    (now : ℚ) : List (String × CacheEntry) × Bool :=
  match findOne coll key with
  | none => (coll, false)
  | some e =>
    (upsertEntry coll key (bumpEntry e now),
     match e.fileName with
     | some nm => !nm.isEmpty
     | none => false)

/-! ## Eviction (`MediaCache._ensure_space`, `media_cache.py` 532-559) -/

/-- The fields of a collection document that eviction reads. -/
structure EvictionEntry where
  key : String
  fileSize : Nat
  score : ℚ
deriving DecidableEq

/-- `MediaCache.get_cache_size`: the sum of the documents'
`file_size` fields (as a Python int, i.e. over `ℤ`). -/
def sumSize (l : List EvictionEntry) : ℤ :=
  (l.map (fun e => (e.fileSize : ℤ))).sum

/-- The cursor `collection.find().sort("score", ASCENDING)`.  MongoDB
leaves the relative order of equal scores unspecified; the model uses a
stable sort, i.e. ties keep insertion order. -/
def sortByScore (l : List EvictionEntry) : List EvictionEntry :=
  List.insertionSort (fun a b => a.score ≤ b.score) l

instance : IsTotal EvictionEntry (fun a b => a.score ≤ b.score) :=
  ⟨fun a b => le_total a.score b.score⟩

instance : IsTrans EvictionEntry (fun a b => a.score ≤ b.score) :=
  ⟨fun _ _ _ hab hbc => le_trans hab hbc⟩

/-- The eviction loop of `_ensure_space` (`media_cache.py` 545-557):
walk the score-ascending cursor; stop as soon as
`current_size <= target_size`, else delete the document and subtract
its size.  Returns the surviving documents. -/
def evictLoop : List EvictionEntry → ℤ → ℤ → List EvictionEntry
  | [], _, _ => []
  | e :: rest, target, current =>
    if current ≤ target then e :: rest
    else evictLoop rest target (current - e.fileSize)

/-- `MediaCache._ensure_space(needed_bytes)` (`media_cache.py` 532-559):
return immediately when `current_size <= max_size_bytes - needed_bytes`,
else evict in score order. -/
def ensureSpace (coll : List EvictionEntry) (maxBytes needed : ℤ) :
    List EvictionEntry :=
  if sumSize coll ≤ maxBytes - needed then coll
  else evictLoop (sortByScore coll) (maxBytes - needed) (sumSize coll)

/-! ## Populator exit paths (`MediaCache._download_file`, `media_cache.py` 126-279)

The retry loop is modelled by the list of its successive attempt
outcomes.  One crucial Python fact is embedded: the handler
`except Exception` at line 241 can NOT catch `asyncio.CancelledError`,
which derives from `BaseException` since Python 3.8 — so the
cancellation branch at line 257 (unlink + break) is unreachable, the
exception propagates out of `_download_file`, and the final
`self.downloading.discard(cache_key)` at line 279 (which is not in a
`finally`) never runs. -/

/-- Outcome of a single attempt of the `_download_file` retry loop. -/
inductive DlAttempt where
  /-- The download ran to completion and measured `actualSize` bytes
  against a descriptor of `fileSize` bytes (`media_cache.py` 204-239). -/
  | completes (actualSize fileSize : Nat)
  /-- A `FLOOD_WAIT` error before any byte was written
  (`media_cache.py` 243-255): rotate client, no unlink. -/
  | floodsBeforeWrite
  /-- Any other exception after bytes were written
  (`media_cache.py` 262-275): unlink the partial file, rotate client. -/
  | failsAfterWrite
  /-- The task is cancelled after bytes were written: the
  `asyncio.CancelledError` escapes `except Exception`. -/
  | cancelledAfterWrite
deriving DecidableEq

/-- Observable outcome of a `_download_file` run. -/
structure DlOutcome where
  committed : Bool
  keyRemoved : Bool
  fileOnDisk : Bool
deriving DecidableEq

/-- The `_download_file` retry loop over its attempt outcomes; the
boolean tracks whether a partial file is on disk.  List exhaustion is
the loop running out of retries, which reaches the final `discard`
(line 279). -/
def runDownloadLoop : List DlAttempt → Bool → DlOutcome
  | [], p => ⟨false, true, p⟩
  | a :: rest, p =>
    match a with
    | .completes actualSize fileSize =>
      if (fileSize : ℚ) * (99 / 100) ≤ (actualSize : ℚ) then ⟨true, true, true⟩
      else runDownloadLoop rest false
    | .floodsBeforeWrite => runDownloadLoop rest p
    | .failsAfterWrite => runDownloadLoop rest false
    | .cancelledAfterWrite => ⟨false, false, true⟩

/-! ## Predictor (`MediaCache.smart_pre_cache`, `media_cache.py` 593-646)

The three episode regexes are matched with Python backtracking
semantics, specialised to their shape `(prefix)(digits)(suffix)`: the
greedy leading `.*` tries the longest prefix first, and the greedy
`\d{lo,hi}` tries the longest digit run first, backtracking into the
suffix requirement. -/

/-- Backtracking over the digit-group widths (longest first), then the
suffix requirement `check`.  Returns (digit group, rest of string). -/
def tryDigits (r2 : List Char) (counts : List Nat)
    (check : List Char → Bool) : Option (List Char × List Char) :=
  match counts with
  | [] => none
  | d :: ds =>
    if (r2.take d).length = d ∧ (r2.take d).all Char.isDigit = true ∧
        check (r2.drop d) = true then
      some (r2.take d, r2.drop d)
    else tryDigits r2 ds check

/-- One anchor position of pattern 1, `(.* - )(\d{2,3})( \[.*)`:
the leading `.*` has consumed `i` characters. -/
def matchAt1 (s : List Char) (i : Nat) :
    Option (List Char × List Char × List Char) :=
  let rest := s.drop i
  if rest.take 3 = [' ', '-', ' '] then
    match tryDigits (rest.drop 3) [3, 2]
        (fun r3 => decide (r3.take 2 = [' ', '['])) with
    | some (num, suf) => some (s.take i ++ [' ', '-', ' '], num, suf)
    | none => none
  else none

/-- One anchor position of pattern 2, `(.*--)(\d{2,3})(.*)`. -/
def matchAt2 (s : List Char) (i : Nat) :
    Option (List Char × List Char × List Char) :=
  let rest := s.drop i
  if rest.take 2 = ['-', '-'] then
    match tryDigits (rest.drop 2) [3, 2] (fun _ => true) with
    | some (num, suf) => some (s.take i ++ ['-', '-'], num, suf)
    | none => none
  else none

/-- One anchor position of pattern 3, `(.* )(\d{1,3})( .*)`. -/
def matchAt3 (s : List Char) (i : Nat) :
    Option (List Char × List Char × List Char) :=
  let rest := s.drop i
  if rest.take 1 = [' '] then
    match tryDigits (rest.drop 1) [3, 2, 1]
        (fun r3 => decide (r3.take 1 = [' '])) with
    | some (num, suf) => some (s.take i ++ [' '], num, suf)
    | none => none
  else none

/-- Try anchor positions `i, i-1, ..., 0` in this order — the greedy
leading `.*` prefers the longest consumed prefix. -/
def searchFrom (p : Nat → Option (List Char × List Char × List Char)) :
    Nat → Option (List Char × List Char × List Char)
  | 0 => p 0
  | i + 1 =>
    match p (i + 1) with
    | some r => some r
    | none => searchFrom p i

/-- `re.match(r'(.* - )(\d{2,3})( \[.*)', s)` with its capture groups. -/
def tryPattern1 (s : List Char) : Option (List Char × List Char × List Char) :=
  searchFrom (matchAt1 s) s.length

/-- `re.match(r'(.*--)(\d{2,3})(.*)', s)` with its capture groups. -/
def tryPattern2 (s : List Char) : Option (List Char × List Char × List Char) :=
  searchFrom (matchAt2 s) s.length

/-- `re.match(r'(.* )(\d{1,3})( .*)', s)` with its capture groups. -/
def tryPattern3 (s : List Char) : Option (List Char × List Char × List Char) :=
  searchFrom (matchAt3 s) s.length

/-- The characters escaped by `re.escape` (Python 3.7+): the special
set `()[]{}?*+-|^$\.&~#` plus space, tab, newline, carriage return,
vertical tab and form feed (123/125 are the braces, 11/12 the vertical
tab and form feed). -/
def reSpecialChars : List Char :=
  ['(', ')', '[', ']', Char.ofNat 123, Char.ofNat 125, '?', '*', '+', '-',
   '|', '^', '$', '\\', '.', '&', '~', '#', ' ', '\t', '\n', '\r',
   Char.ofNat 11, Char.ofNat 12]

/-- `re.escape`: prefix each special character with a backslash. -/
def reEscape (s : List Char) : List Char :=
  (s.map (fun c => if c ∈ reSpecialChars then ['\\', c] else [c])).flatten

/-- Decimal digit string of a natural number, Python `str(n)`. -/
def natToChars (n : Nat) : List Char := (Nat.repr n).toList

/-- Python `int(...)` on a string of ASCII digits. -/
def parseNat (ds : List Char) : Nat :=
  ds.foldl (fun n c => n * 10 + (c.toNat - 48)) 0

/-- Python `str.zfill(w)`: left-pad with zeros to width `w`. -/
def zfill (s : List Char) (w : Nat) : List Char :=
  List.replicate (w - s.length) '0' ++ s

/-- The catalog lookup regex built from a match
(`media_cache.py` 622-631):
`f"^{re.escape(prefix)}{str(n + 1).zfill(len(digits))}.*"`. -/
def nextEpisodeRegex (pre num : List Char) : List Char :=
  '^' :: (reEscape pre ++ zfill (natToChars (parseNat num + 1)) num.length
    ++ ['.', '*'])

/-- The pattern-selection loop of `smart_pre_cache`
(`media_cache.py` 607-639): the three patterns are tried in order, the
first match wins (the `int()` conversion cannot fail on a digit group,
so the `ValueError` branch is dead), and `none` means the function
returns before any catalog lookup or populator dispatch. -/
def smartPreCachePattern (filename : List Char) : Option (List Char) :=
  match tryPattern1 filename with
  | some r => some (nextEpisodeRegex r.1 r.2.1)
  | none =>
    match tryPattern2 filename with
    | some r => some (nextEpisodeRegex r.1 r.2.1)
    | none =>
      match tryPattern3 filename with
      | some r => some (nextEpisodeRegex r.1 r.2.1)
      | none => none

/-! ### Flattened chunk arithmetic -/

/-- Joining `n` consecutive aligned chunks of width `cs` starting at
`start` recovers the contiguous segment of length `n * cs`. -/
theorem flatten_chunks (file : List Nat) (cs : Nat) :
    ∀ (n start : Nat),
      ((List.range n).map (fun p => (file.drop (start + p * cs)).take cs)).flatten
        = (file.drop start).take (n * cs) := by
  intro n
  induction n with
  | zero => intro start; simp
  | succ n ih =>
    intro start
    rw [List.range_succ, List.map_append, List.flatten_append]
    simp only [List.map_cons, List.map_nil, List.flatten_cons, List.flatten_nil,
      List.append_nil]
    rw [ih start, Nat.succ_mul, List.take_add, List.drop_drop]

/-- A one-part emission is the doubly cut first chunk. -/
theorem yieldFile_one (file : List Nat) (offset fc lc cs : Nat) :
    yieldFile file offset fc lc 1 cs
      = (((file.drop offset).take cs).drop fc).take (lc - fc) := by
  unfold yieldFile
  simp [List.range_succ]

/-- An emission of `e + 2` parts is the cut head chunk, `e` full middle
chunks, and the cut tail chunk. -/
theorem yieldFile_two_plus (file : List Nat) (offset fc lc cs e : Nat) :
    yieldFile file offset fc lc (e + 2) cs =
      ((file.drop offset).take cs).drop fc
      ++ ((file.drop (offset + cs)).take (e * cs))
      ++ ((file.drop (offset + (e + 1) * cs)).take cs).take lc := by
  unfold yieldFile
  rw [List.range_succ_eq_map]
  simp only [List.map_cons, List.flatten_cons, List.map_map]
  have h1 : ¬ (e + 2 = 1) := by omega
  simp only [h1, if_false, if_neg h1, Nat.zero_mul, Nat.add_zero, if_pos rfl,
    if_true]
  rw [List.range_succ, List.map_append, List.flatten_append]
  simp only [List.map_cons, List.map_nil, List.flatten_cons, List.flatten_nil,
    List.append_nil, Function.comp_apply]
  have hmid :
      (List.range e).map ((fun p =>
        if p = 0 then ((file.drop (offset + p * cs)).take cs).drop fc
        else if p = e + 2 - 1 then ((file.drop (offset + p * cs)).take cs).take lc
        else (file.drop (offset + p * cs)).take cs) ∘ Nat.succ)
      = (List.range e).map (fun q => (file.drop ((offset + cs) + q * cs)).take cs) := by
    apply List.map_congr_left
    intro q hq
    have hq' : q < e := List.mem_range.mp hq
    have hne0 : ¬ (Nat.succ q = 0) := by omega
    have hnel : ¬ (Nat.succ q = e + 2 - 1) := by omega
    simp only [Function.comp_apply, if_neg hne0, if_neg hnel,
      Nat.succ_eq_add_one]
    have harith : offset + (q + 1) * cs = offset + cs + q * cs := by ring
    rw [harith]
  rw [hmid, flatten_chunks]
  have hne0' : ¬ (Nat.succ e = 0) := by omega
  have heq : Nat.succ e = e + 2 - 1 := by omega
  simp only [if_neg hne0', if_pos heq, Nat.succ_eq_add_one]
  rw [List.append_assoc]

/-- Round trip of the section 4.C mapping, general in the chunk size:
whenever `until` is not a multiple of the chunk size, the emitted bytes
are exactly `file[from..until]`. -/
theorem yieldFile_roundtrip (file : List Nat) (f u cs : Nat)
    (hcs : 0 < cs) (hfu : f ≤ u) (_hu : u < file.length) (hmod : u % cs ≠ 0) :
    yieldFile file (f - f % cs) (f % cs) (u % cs + 1)
        ((u + cs - 1) / cs - (f - f % cs) / cs) cs
      = byteSlice file f u := by
  have hf := Nat.div_add_mod f cs
  have hu' := Nat.div_add_mod u cs
  have hfm : f % cs < cs := Nat.mod_lt _ hcs
  have hum : u % cs < cs := Nat.mod_lt _ hcs
  have hoff : f - f % cs = cs * (f / cs) := by omega
  have hoffdiv : (f - f % cs) / cs = f / cs := by
    rw [hoff, Nat.mul_div_cancel_left _ hcs]
  have hceil : (u + cs - 1) / cs = u / cs + 1 := by
    have hmul : cs * (u / cs + 1) = cs * (u / cs) + cs := by ring
    have h1 : u + cs - 1 = cs * (u / cs + 1) + (u % cs - 1) := by omega
    have h2 : u % cs - 1 < cs := by omega
    rw [h1, Nat.mul_add_div hcs, Nat.div_eq_of_lt h2]
  rw [hoffdiv, hceil]
  rcases Nat.lt_or_ge (f / cs) (u / cs) with hlt | hge
  · obtain ⟨e, he⟩ : ∃ e, u / cs = f / cs + (e + 1) :=
      ⟨u / cs - f / cs - 1, by omega⟩
    have hpc : u / cs + 1 - f / cs = e + 2 := by omega
    rw [hpc, yieldFile_two_plus, hoff]
    have hcsk : cs * (u / cs) = cs * (f / cs) + cs * (e + 1) := by
      rw [he]; ring
    have piece1 : ((file.drop (cs * (f / cs))).take cs).drop (f % cs)
        = (file.drop f).take (cs - f % cs) := by
      rw [List.drop_take, List.drop_drop, hf]
    have piece2 : (file.drop (cs * (f / cs) + cs)).take (e * cs)
        = ((file.drop f).drop (cs - f % cs)).take (e * cs) := by
      rw [List.drop_drop]
      have h7 : f + (cs - f % cs) = cs * (f / cs) + cs := by omega
      rw [h7]
    have piece3 :
        ((file.drop (cs * (f / cs) + (e + 1) * cs)).take cs).take (u % cs + 1)
        = ((file.drop f).drop (cs - f % cs + e * cs)).take (u % cs + 1) := by
      rw [List.take_take, List.drop_drop]
      have h8 : (e + 1) * cs = e * cs + cs := by ring
      have h2 : f + (cs - f % cs + e * cs) = cs * (f / cs) + (e + 1) * cs := by
        omega
      have h3 : (u % cs + 1) ⊓ cs = u % cs + 1 := by omega
      rw [h2, h3]
    rw [piece1, piece2, piece3]
    rw [← List.take_add, ← List.take_add]
    unfold byteSlice
    congr 1
    have h4 : cs * (e + 1) = e * cs + cs := by ring
    omega
  · have heq : u / cs = f / cs := le_antisymm hge (Nat.div_le_div_right hfu)
    have hprod : cs * (u / cs) = cs * (f / cs) := by rw [heq]
    have hpc : u / cs + 1 - f / cs = 1 := by omega
    rw [hpc, yieldFile_one, hoff]
    rw [List.drop_take, List.drop_drop, hf, List.take_take]
    unfold byteSlice
    congr 1
    omega

/-! ## Claim C1: range round trip of the chunk mapping -/

/-- Claim C1, as stated, is false: at `from = 0`,
`until = CHUNK` (a multiple of the chunk size), `size = CHUNK + 2`,
the mapping gives `part_count = ceil(CHUNK/CHUNK) - 0 = 1` and
`last_cut = 1`, so the emission is the single byte `file[0]` while the
requested slice `file[0..CHUNK]` has `CHUNK + 1` bytes. -/
theorem c1_counterexample :
    yieldFile (List.replicate (CHUNK + 2) 0)
        (streamMapping 0 CHUNK (CHUNK + 2) CHUNK).1
        (streamMapping 0 CHUNK (CHUNK + 2) CHUNK).2.1
        (streamMapping 0 CHUNK (CHUNK + 2) CHUNK).2.2.1
        (streamMapping 0 CHUNK (CHUNK + 2) CHUNK).2.2.2 CHUNK
      ≠ byteSlice (List.replicate (CHUNK + 2) 0) 0 CHUNK := by
  have hm : streamMapping 0 CHUNK (CHUNK + 2) CHUNK = (0, 0, 1, 1) := by
    unfold streamMapping CHUNK
    norm_num
  rw [hm]
  rw [yieldFile_one]
  unfold byteSlice
  simp only [List.drop_replicate, List.take_replicate, List.drop_zero,
    Nat.sub_zero, Nat.zero_sub, Nat.sub_self]
  intro h
  have hlen := congrArg List.length h
  simp only [List.length_replicate] at hlen
  revert hlen
  unfold CHUNK
  norm_num

/-- Claim C1 (amended): for every byte range with
`0 ≤ from ≤ until < size` such that `until` is NOT a multiple of
`CHUNK`, the byte-wise concatenation of the chunk slices emitted under
the section 4.C mapping computed by `media_streamer`
(`stream_routes.py` lines 839-847) equals `file[from..until]`.  (As
stated the claim fails exactly when `until % CHUNK = 0`: there
`part_count = ceil(until/CHUNK) - floor(offset/CHUNK)` undercounts the
covered chunks by one — see `c1_counterexample`.) -/
theorem c1_range_roundtrip (file : List Nat) (fromBytes untilBytes : Nat)
    (hle : fromBytes ≤ untilBytes) (hsize : untilBytes < file.length)
    (hmod : untilBytes % CHUNK ≠ 0) :
    yieldFile file
        (streamMapping fromBytes untilBytes file.length CHUNK).1
        (streamMapping fromBytes untilBytes file.length CHUNK).2.1
        (streamMapping fromBytes untilBytes file.length CHUNK).2.2.1
        (streamMapping fromBytes untilBytes file.length CHUNK).2.2.2 CHUNK
      = byteSlice file fromBytes untilBytes := by
  have hclamp : min untilBytes (file.length - 1) = untilBytes := by omega
  have hfc : fromBytes - (fromBytes - fromBytes % CHUNK) = fromBytes % CHUNK := by
    have := Nat.mod_le fromBytes CHUNK
    omega
  unfold streamMapping
  simp only [hclamp, hfc]
  exact yieldFile_roundtrip file fromBytes untilBytes CHUNK (by norm_num [CHUNK])
    hle hsize hmod

/-- Witness for `c1_range_roundtrip` at a concrete input. -/
theorem c1_range_roundtrip_witness :
    (0 ≤ 1 ∧ 1 < ([7, 9] : List Nat).length ∧ 1 % CHUNK ≠ 0) ∧
    yieldFile ([7, 9] : List Nat)
        (streamMapping 0 1 ([7, 9] : List Nat).length CHUNK).1
        (streamMapping 0 1 ([7, 9] : List Nat).length CHUNK).2.1
        (streamMapping 0 1 ([7, 9] : List Nat).length CHUNK).2.2.1
        (streamMapping 0 1 ([7, 9] : List Nat).length CHUNK).2.2.2 CHUNK
      = byteSlice ([7, 9] : List Nat) 0 1 :=
  ⟨⟨by decide, by decide, by decide⟩,
    c1_range_roundtrip [7, 9] 0 1 (by decide) (by decide) (by decide)⟩

/-! ## Claim C2: range validation -/

/-- Claim C2, as stated, is false: for `from = 0`, `until = 100`
against a file of size 100 the claim demands a 416 response (since
`until ≤ size - 1` fails), but neither `media_streamer` nor
`stream_from_cache` rejects — both only check `until > size`, and then
clamp `until` to `size - 1` and serve the request. -/
theorem c2_counterexample :
    ¬ mediaStreamerReject 0 100 100 ∧ ¬ streamFromCacheReject 0 100 100 ∧
    ¬ (0 ≤ (0 : ℤ) ∧ (0 : ℤ) ≤ 100 ∧ (100 : ℤ) ≤ 100 - 1) := by
  refine ⟨?_, ?_, ?_⟩ <;> decide

/-- Claim C2 (amended): on both the cache-hit path and the remote
path, the response is 416 with `Content-Range: bytes */size` exactly
when NOT `0 ≤ from ≤ until ≤ size` — the code accepts `until = size`
(one past the last valid index) and clamps it, rather than rejecting
at `until = size - 1` as the claim states. -/
theorem c2_range_validation (fromBytes untilBytes fileSize : ℤ) :
    (mediaStreamerReject fromBytes untilBytes fileSize ↔
      ¬ (0 ≤ fromBytes ∧ fromBytes ≤ untilBytes ∧ untilBytes ≤ fileSize)) ∧
    (streamFromCacheReject fromBytes untilBytes fileSize ↔
      ¬ (0 ≤ fromBytes ∧ fromBytes ≤ untilBytes ∧ untilBytes ≤ fileSize)) := by
  unfold mediaStreamerReject streamFromCacheReject
  constructor <;> omega

/-! ## Claim C8: eviction score formula and monotonicity -/

/-- Claim C8: for all hit counts `h`, access times `t` and evaluation
times `now` with `t ≤ now`, the score of `_calculate_score` equals
`10 * h + max(0, 100 - (hours_since_access / 24) * 10)`, is monotone
non-decreasing in `h`, and non-increasing in the elapsed time
`now - t`. -/
theorem c8_score_formula (h h2 : Nat) (t t2 now : ℚ) (_hnow : t ≤ now) :
    calcScore h t now = 10 * h + max 0 (100 - ((now - t) / 3600 / 24) * 10) ∧
    (h ≤ h2 → calcScore h t now ≤ calcScore h2 t now) ∧
    (t2 ≤ t → calcScore h t2 now ≤ calcScore h t now) := by
  refine ⟨?_, ?_, ?_⟩
  · unfold calcScore
    ring_nf
  · intro hle
    unfold calcScore
    have : (h : ℚ) * 10 ≤ (h2 : ℚ) * 10 := by
      have : (h : ℚ) ≤ (h2 : ℚ) := by exact_mod_cast hle
      linarith
    linarith
  · intro hle
    unfold calcScore
    have key : (now - t) / 3600 / 24 * 10 ≤ (now - t2) / 3600 / 24 * 10 := by
      have h1 : now - t ≤ now - t2 := by linarith
      have h2q : (now - t) / 3600 ≤ (now - t2) / 3600 := by linarith
      have h3q : (now - t) / 3600 / 24 ≤ (now - t2) / 3600 / 24 := by linarith
      linarith
    have hmax : max 0 (100 - (now - t2) / 3600 / 24 * 10)
        ≤ max 0 (100 - (now - t) / 3600 / 24 * 10) :=
      max_le_max le_rfl (by linarith)
    linarith

/-- Witness for `c8_score_formula` at a concrete input. -/
theorem c8_score_formula_witness :
    ((0 : ℚ) ≤ 1) ∧ calcScore 1 0 1 ≤ calcScore 2 0 1 :=
  ⟨by norm_num, (c8_score_formula 1 2 0 0 1 (by norm_num)).2.1 (by norm_num)⟩

/-! ## Claim C3: single-flight admission -/

/-- Claim C3: with the cache enabled, the admission of
`start_background_download` starts no download and leaves the
downloading set unchanged when the key is already downloading, when
the index has an entry whose file exists on disk, or when the
mime/extension is not cacheable; otherwise it inserts the key into the
downloading set and starts the download task. -/
theorem c3_admission (downloading : List String)
    (coll : List (String × CacheEntry)) (disk : List Char → Bool)
    (key : String) (mimeType : Option String)
    (fileName : Option (List Char)) :
    ((startBackgroundDownload true downloading coll disk key mimeType
        fileName).2.2 = true ↔
      (key ∉ downloading ∧
       (∀ e, findOne coll key = some e →
          (e.filePath.isEmpty = true ∨ disk e.filePath = false)) ∧
       isCacheable mimeType fileName = true)) ∧
    ((startBackgroundDownload true downloading coll disk key mimeType
        fileName).2.2 = true →
      (startBackgroundDownload true downloading coll disk key mimeType
        fileName).1 = key :: downloading) ∧
    ((startBackgroundDownload true downloading coll disk key mimeType
        fileName).2.2 = false →
      (startBackgroundDownload true downloading coll disk key mimeType
        fileName).1 = downloading) := by
  by_cases hdl : key ∈ downloading
  · simp [startBackgroundDownload, hdl]
  · rcases hfo : findOne coll key with _ | e
    · cases hcb : isCacheable mimeType fileName
      · simp [startBackgroundDownload, getCachedPath, hdl, hfo, hcb]
      · simp [startBackgroundDownload, getCachedPath, hdl, hfo, hcb]
    · cases hex : (!e.filePath.isEmpty && disk e.filePath)
      · cases hcb : isCacheable mimeType fileName
        · simp [startBackgroundDownload, getCachedPath, hdl, hfo, hex, hcb]
        · simp [startBackgroundDownload, getCachedPath, hdl, hfo, hex, hcb]
          rcases Bool.eq_false_or_eq_true e.filePath.isEmpty with h1 | h1
          · left
            exact List.isEmpty_iff.mp h1
          · right
            cases hq : disk e.filePath
            · rfl
            · rw [h1, hq] at hex
              simp at hex
      · have hparts : e.filePath.isEmpty = false ∧ disk e.filePath = true := by
          simpa using hex
        simp [startBackgroundDownload, getCachedPath, hdl, hfo, hex]
        intro hcon
        rcases hcon with h | h
        · exact absurd (List.isEmpty_iff.mpr h) (by simp [hparts.1])
        · rw [hparts.2] at h
          exact absurd h (by simp)

/-- Witness for `c3_admission` at a concrete input: empty downloading
set, empty index, cacheable mime — the download is admitted. -/
theorem c3_admission_witness :
    (startBackgroundDownload true [] [] (fun _ => true) "1:2:abc"
        (some "video/mp4") none).2.2 = true ∧
    (startBackgroundDownload true [] [] (fun _ => true) "1:2:abc"
        (some "video/mp4") none).1 = ["1:2:abc"] :=
  have h := c3_admission [] [] (fun _ => true) "1:2:abc" (some "video/mp4") none
  have hstart : (startBackgroundDownload true [] [] (fun _ => true) "1:2:abc"
      (some "video/mp4") none).2.2 = true :=
    h.1.mpr ⟨by decide, fun e he => by simp [findOne] at he, by decide⟩
  ⟨hstart, h.2.1 hstart⟩

/-! ## Claim C4: download verification and commit -/

/-- Looking up the upserted key finds exactly the upserted document. -/
theorem findOne_upsertEntry (coll : List (String × CacheEntry))
    (key : String) (e : CacheEntry) :
    findOne (upsertEntry coll key e) key = some e := by
  induction coll with
  | nil => simp [upsertEntry, findOne]
  | cons kv rest ih =>
    by_cases h : kv.1 = key
    · simp [upsertEntry, h, findOne]
    · simp only [upsertEntry, if_neg h]
      simpa [findOne, List.find?_cons, h] using ih

/-- Claim C4: a completed populator attempt commits the index entry
(with `access_count = 1`, `last_access = now`,
`score = _calculate_score(1, now)`) iff
`actual_size >= file_size * 0.99`; otherwise the partial file is
deleted and the index is unchanged. -/
theorem c4_commit_verification (coll : List (String × CacheEntry))
    (key : String) (filePath : List Char) (actualSize fileSize : Nat)
    (mimeType : Option String) (fileName : Option (List Char)) (now : ℚ) :
    ((verifyAndCommit coll key filePath actualSize fileSize mimeType fileName
        now).2.1 = true ↔ (fileSize : ℚ) * (99 / 100) ≤ (actualSize : ℚ)) ∧
    ((fileSize : ℚ) * (99 / 100) ≤ (actualSize : ℚ) →
      findOne (verifyAndCommit coll key filePath actualSize fileSize mimeType
          fileName now).1 key
        = some (commitEntry now filePath actualSize mimeType fileName) ∧
      (commitEntry now filePath actualSize mimeType fileName).accessCount = 1 ∧
      (commitEntry now filePath actualSize mimeType fileName).lastAccess = now ∧
      (commitEntry now filePath actualSize mimeType fileName).score
        = calcScore 1 now now) ∧
    (¬ (fileSize : ℚ) * (99 / 100) ≤ (actualSize : ℚ) →
      (verifyAndCommit coll key filePath actualSize fileSize mimeType fileName
        now).1 = coll ∧
      (verifyAndCommit coll key filePath actualSize fileSize mimeType fileName
        now).2.2 = true) := by
  by_cases hc : (fileSize : ℚ) * (99 / 100) ≤ (actualSize : ℚ)
  · refine ⟨by simp [verifyAndCommit, hc], fun _ => ?_, fun hn => absurd hc hn⟩
    exact ⟨by simp [verifyAndCommit, hc, findOne_upsertEntry], rfl, rfl, rfl⟩
  · exact ⟨by simp [verifyAndCommit, hc], fun hy => absurd hy hc,
      fun _ => by simp [verifyAndCommit, hc]⟩

/-- Witness for `c4_commit_verification`: 99 measured bytes of a
100-byte descriptor pass the 99 per cent bar and commit entry fields
are as claimed. -/
theorem c4_commit_verification_witness :
    ((100 : ℚ) * (99 / 100) ≤ (99 : ℚ)) ∧
    (findOne (verifyAndCommit [] "k" [] 99 100 none none 0).1 "k"
      = some (commitEntry 0 [] 99 none none) ∧
     (commitEntry 0 [] 99 none none).accessCount = 1 ∧
     (commitEntry 0 [] 99 none none).lastAccess = 0 ∧
     (commitEntry 0 [] 99 none none).score = calcScore 1 0 0) :=
  ⟨by norm_num,
    (c4_commit_verification [] "k" [] 99 100 none none 0).2.1 (by norm_num)⟩

/-! ## Claim C10: `record_access` on an absent key -/

/-- Claim C10: `record_access` with a key absent from the index
returns normally, leaves the index unchanged and dispatches no
predictor task; when the key is present, the document is replaced by
one with `access_count + 1`, `last_access = now` and the recomputed
score. -/
theorem c10_record_access_frame (coll : List (String × CacheEntry))
    (key : String) (now : ℚ) :
    (findOne coll key = none → recordAccess coll key now = (coll, false)) ∧
    (∀ e, findOne coll key = some e →
      (recordAccess coll key now).1 = upsertEntry coll key (bumpEntry e now) ∧
      findOne (recordAccess coll key now).1 key = some (bumpEntry e now)) := by
  constructor
  · intro h
    unfold recordAccess
    rw [h]
  · intro e h
    unfold recordAccess
    rw [h]
    exact ⟨rfl, findOne_upsertEntry coll key _⟩

/-- Witness for `c10_record_access_frame`: the empty index is left
untouched and nothing is dispatched. -/
theorem c10_record_access_frame_witness :
    findOne [] "k" = none ∧ recordAccess [] "k" 0 = ([], false) :=
  ⟨rfl, (c10_record_access_frame [] "k" 0).1 rfl⟩

/-! ## Claim C5: populator exit paths -/

/-- Claim C5 is wrong about the code: on cancellation the
`asyncio.CancelledError` escapes `except Exception`
(`media_cache.py` line 241), so the unlink of the cancellation branch
and the final `downloading.discard` (line 279) never run — the key
stays in the downloading set and the partial file stays on disk.  The
other exit paths (successful commit, exhausted retries) do remove the
key, as the second and third conjuncts show. -/
theorem c5_cancellation_divergence :
    runDownloadLoop [DlAttempt.cancelledAfterWrite] false
      = { committed := false, keyRemoved := false, fileOnDisk := true } ∧
    runDownloadLoop [DlAttempt.completes 100 100] false
      = { committed := true, keyRemoved := true, fileOnDisk := true } ∧
    runDownloadLoop [DlAttempt.failsAfterWrite, DlAttempt.failsAfterWrite] false
      = { committed := false, keyRemoved := true, fileOnDisk := false } := by
  refine ⟨rfl, ?_, rfl⟩
  have h : ((100 : Nat) : ℚ) * (99 / 100) ≤ ((100 : Nat) : ℚ) := by norm_num
  simp [runDownloadLoop, h]
  norm_num

/-! ## Claim C6: space reservation -/

/-- The eviction loop, fed the true running total, drives the
surviving total below the target whenever the target is nonnegative. -/
theorem evictLoop_sum (l : List EvictionEntry) :
    ∀ (target current : ℤ), current = sumSize l → 0 ≤ target →
      sumSize (evictLoop l target current) ≤ target := by
  induction l with
  | nil =>
    intro t c _ ht
    simpa [evictLoop, sumSize] using ht
  | cons e rest ih =>
    intro t c hc ht
    unfold evictLoop
    by_cases hle : c ≤ t
    · rw [if_pos hle, ← hc]
      exact hle
    · rw [if_neg hle]
      apply ih _ _ _ ht
      simp only [sumSize, List.map_cons, List.sum_cons] at hc
      simp only [sumSize]
      omega

/-- Sorting by score permutes the index, so the size total is kept. -/
theorem sumSize_sortByScore (l : List EvictionEntry) :
    sumSize (sortByScore l) = sumSize l := by
  unfold sumSize sortByScore
  exact List.Perm.sum_eq
    ((List.perm_insertionSort (fun a b => a.score ≤ b.score) l).map _)

/-- Claim C6, as stated, is false: when `needed_bytes` exceeds
`max_bytes` the loop evicts everything and still cannot satisfy
`sum_size() + needed <= max_bytes`.  Here: one 50-byte entry, a
100-byte budget and a 200-byte reservation end with
`0 + 200 <= 100` false. -/
theorem c6_counterexample :
    ¬ (sumSize (ensureSpace [⟨"a", 50, 20⟩] 100 200) + 200 ≤ 100) := by
  decide

/-- Claim C6 (amended): provided `needed_bytes ≤ max_bytes`, after
`_ensure_space(needed_bytes)` returns,
`sum_size() + needed_bytes ≤ max_bytes`; and when the cache already
had room no entry is evicted (the index is returned unchanged). -/
theorem c6_reserve (coll : List EvictionEntry) (maxBytes needed : ℤ)
    (hneed : needed ≤ maxBytes) :
    sumSize (ensureSpace coll maxBytes needed) + needed ≤ maxBytes ∧
    (sumSize coll + needed ≤ maxBytes →
      ensureSpace coll maxBytes needed = coll) := by
  constructor
  · unfold ensureSpace
    by_cases h : sumSize coll ≤ maxBytes - needed
    · rw [if_pos h]
      linarith
    · rw [if_neg h]
      have hs := evictLoop_sum (sortByScore coll) (maxBytes - needed)
        (sumSize coll) (sumSize_sortByScore coll).symm (by linarith)
      linarith
  · intro h
    unfold ensureSpace
    rw [if_pos (by linarith)]

/-- Witness for `c6_reserve` at a concrete input. -/
theorem c6_reserve_witness :
    ((30 : ℤ) ≤ 100) ∧
    sumSize (ensureSpace [⟨"a", 50, 20⟩] 100 30) + 30 ≤ 100 :=
  ⟨by norm_num, (c6_reserve [⟨"a", 50, 20⟩] 100 30 (by norm_num)).1⟩

/-! ## Claim C7: eviction ordering -/

/-- The eviction loop keeps a suffix of the cursor order. -/
theorem evictLoop_isSuffix (l : List EvictionEntry) :
    ∀ t c, (evictLoop l t c).IsSuffix l := by
  induction l with
  | nil =>
    intro t c
    simp [evictLoop]
  | cons e rest ih =>
    intro t c
    unfold evictLoop
    by_cases h : c ≤ t
    · rw [if_pos h]
    · rw [if_neg h]
      exact (ih _ _).trans (List.suffix_cons e rest)

/-- Claim C7, as stated ("strictly greater"), is false when scores tie
at the eviction boundary: with entries a, b of equal score 20 and c of
score 50 under a 100-byte budget and a 75-byte reservation, a is
evicted while b survives, and a's score is not strictly below b's. -/
theorem c7_counterexample :
    (⟨"a", 10, 20⟩ : EvictionEntry)
        ∈ [(⟨"a", 10, 20⟩ : EvictionEntry), ⟨"b", 10, 20⟩, ⟨"c", 10, 50⟩] ∧
    (⟨"a", 10, 20⟩ : EvictionEntry)
        ∉ ensureSpace [⟨"a", 10, 20⟩, ⟨"b", 10, 20⟩, ⟨"c", 10, 50⟩] 100 75 ∧
    (⟨"b", 10, 20⟩ : EvictionEntry)
        ∈ ensureSpace [⟨"a", 10, 20⟩, ⟨"b", 10, 20⟩, ⟨"c", 10, 50⟩] 100 75 ∧
    ¬ ((⟨"a", 10, 20⟩ : EvictionEntry).score
        < (⟨"b", 10, 20⟩ : EvictionEntry).score) := by
  refine ⟨by decide, by decide, by decide, by decide⟩

/-- Claim C7 (amended): at the moment of the eviction decision every
evicted entry's score is at most (not necessarily strictly below)
every surviving entry's score. -/
theorem c7_eviction_order (coll : List EvictionEntry) (maxBytes needed : ℤ)
    (x y : EvictionEntry) (hx : x ∈ coll)
    (hxout : x ∉ ensureSpace coll maxBytes needed)
    (hy : y ∈ ensureSpace coll maxBytes needed) :
    x.score ≤ y.score := by
  unfold ensureSpace at hxout hy
  by_cases h : sumSize coll ≤ maxBytes - needed
  · rw [if_pos h] at hxout
    exact absurd hx hxout
  · rw [if_neg h] at hxout hy
    obtain ⟨pre, hpre⟩ :=
      evictLoop_isSuffix (sortByScore coll) (maxBytes - needed) (sumSize coll)
    have hxs : x ∈ sortByScore coll := by
      unfold sortByScore
      exact ((List.perm_insertionSort (fun a b => a.score ≤ b.score)
        coll).mem_iff).mpr hx
    rw [← hpre] at hxs
    rcases List.mem_append.mp hxs with hxp | hxr
    · have hsorted : List.Sorted (fun a b => a.score ≤ b.score)
          (sortByScore coll) :=
        List.sorted_insertionSort (fun a b => a.score ≤ b.score) coll
      rw [← hpre] at hsorted
      exact (List.pairwise_append.mp hsorted).2.2 x hxp y hy
    · exact absurd hxr hxout

/-- Witness for `c7_eviction_order` at a concrete input. -/
theorem c7_eviction_order_witness :
    ((⟨"a", 10, 1⟩ : EvictionEntry) ∈ [(⟨"a", 10, 1⟩ : EvictionEntry), ⟨"b", 10, 2⟩] ∧
     (⟨"a", 10, 1⟩ : EvictionEntry)
        ∉ ensureSpace [⟨"a", 10, 1⟩, ⟨"b", 10, 2⟩] 100 90 ∧
     (⟨"b", 10, 2⟩ : EvictionEntry)
        ∈ ensureSpace [⟨"a", 10, 1⟩, ⟨"b", 10, 2⟩] 100 90) ∧
    (⟨"a", 10, 1⟩ : EvictionEntry).score
      ≤ (⟨"b", 10, 2⟩ : EvictionEntry).score :=
  ⟨⟨by decide, by decide, by decide⟩,
    c7_eviction_order [⟨"a", 10, 1⟩, ⟨"b", 10, 2⟩] 100 90 _ _
      (by decide) (by decide) (by decide)⟩

/-! ## Claim C9: predictor patterns and the catalog regex -/

/-- A successful digit-group match splits its input. -/
theorem tryDigits_decomp (r2 : List Char) (check : List Char → Bool) :
    ∀ (counts : List Nat) (num suf : List Char),
      tryDigits r2 counts check = some (num, suf) → num ++ suf = r2 := by
  intro counts
  induction counts with
  | nil =>
    intro num suf h
    simp [tryDigits] at h
  | cons d ds ih =>
    intro num suf h
    unfold tryDigits at h
    by_cases hc : ((r2.take d).length = d ∧ (r2.take d).all Char.isDigit = true
        ∧ check (r2.drop d) = true)
    · rw [if_pos hc] at h
      injection h with h
      rw [Prod.mk.injEq] at h
      rw [← h.1, ← h.2]
      exact List.take_append_drop d r2
    · rw [if_neg hc] at h
      exact ih num suf h

/-- Backtracking search transfers any property of whatever the
per-position matcher returns. -/
theorem searchFrom_spec {Q : List Char × List Char × List Char → Prop}
    (p : Nat → Option (List Char × List Char × List Char))
    (hp : ∀ j r, p j = some r → Q r) :
    ∀ i r, searchFrom p i = some r → Q r := by
  intro i
  induction i with
  | zero =>
    intro r h
    exact hp 0 r h
  | succ i ih =>
    intro r h
    unfold searchFrom at h
    rcases hpi : p (i + 1) with _ | r2
    · rw [hpi] at h
      exact ih r h
    · rw [hpi] at h
      injection h with h
      exact h ▸ hp (i + 1) r2 hpi

/-- A successful pattern-1 match decomposes the filename into its
three capture groups. -/
theorem matchAt1_decomp (s : List Char) (i : Nat)
    (r : List Char × List Char × List Char)
    (h : matchAt1 s i = some r) : r.1 ++ r.2.1 ++ r.2.2 = s := by
  unfold matchAt1 at h
  by_cases hc : (s.drop i).take 3 = [' ', '-', ' ']
  · rw [if_pos hc] at h
    rcases htd : tryDigits ((s.drop i).drop 3) [3, 2]
        (fun r3 => decide (r3.take 2 = [' ', '['])) with _ | numsuf
    · rw [htd] at h
      simp at h
    · rw [htd] at h
      obtain ⟨num, suf⟩ := numsuf
      injection h with h
      subst h
      have hd := tryDigits_decomp ((s.drop i).drop 3) _ [3, 2] num suf htd
      show (s.take i ++ [' ', '-', ' ']) ++ num ++ suf = s
      rw [List.append_assoc, List.append_assoc, hd, ← hc,
        List.take_append_drop, List.take_append_drop]
  · rw [if_neg hc] at h
    simp at h

/-- Claim C9's literal example regex is wrong: for
`"Show - 04 [1080p].mkv"` the code produces
`"^" + re.escape("Show - ") + "05" + ".*"`, i.e. the 15-character
string `^Show\ \-\ 05.*` — `re.escape` escapes the spaces and the
hyphen, and no space precedes `.*` — not `^Show - 05 .*`. -/
theorem c9_counterexample :
    smartPreCachePattern ("Show - 04 [1080p].mkv".toList)
      ≠ some ("^Show - 05 .*".toList) := by
  decide

/-- Claim C9 (amended): the three patterns are tried in the fixed
section 4.G order and the first match wins; a pattern-1 match splits
the filename into prefix, digit group and suffix and yields the regex
`'^' + re.escape(prefix) + zfill(n + 1, width) + ".*"` (for
`"Show - 04 [1080p].mkv"`: `^Show\ \-\ 05.*`, with escaped spaces
and hyphen and no space before `.*`); when no pattern matches, no
catalog lookup or populator dispatch occurs (`none`). -/
theorem c9_predictor_regex :
    smartPreCachePattern ("Show - 04 [1080p].mkv".toList)
        = some ("^Show\\ \\-\\ 05.*".toList) ∧
    (∀ s r, tryPattern1 s = some r →
        smartPreCachePattern s = some (nextEpisodeRegex r.1 r.2.1) ∧
        r.1 ++ r.2.1 ++ r.2.2 = s) ∧
    (∀ s r, tryPattern1 s = none → tryPattern2 s = some r →
        smartPreCachePattern s = some (nextEpisodeRegex r.1 r.2.1)) ∧
    (∀ s r, tryPattern1 s = none → tryPattern2 s = none →
        tryPattern3 s = some r →
        smartPreCachePattern s = some (nextEpisodeRegex r.1 r.2.1)) ∧
    (∀ s, tryPattern1 s = none → tryPattern2 s = none →
        tryPattern3 s = none → smartPreCachePattern s = none) := by
  refine ⟨by decide, ?_, ?_, ?_, ?_⟩
  · intro s r h
    refine ⟨?_, ?_⟩
    · unfold smartPreCachePattern
      rw [h]
    · exact searchFrom_spec (matchAt1 s)
        (fun j rr hj => matchAt1_decomp s j rr hj) s.length r h
  · intro s r h1 h2
    unfold smartPreCachePattern
    rw [h1, h2]
  · intro s r h1 h2 h3
    unfold smartPreCachePattern
    rw [h1, h2, h3]
  · intro s h1 h2 h3
    unfold smartPreCachePattern
    rw [h1, h2, h3]

/-- Witness for `c9_predictor_regex` at a concrete no-match input. -/
theorem c9_predictor_regex_witness :
    (tryPattern1 ("x".toList) = none ∧ tryPattern2 ("x".toList) = none ∧
     tryPattern3 ("x".toList) = none) ∧
    smartPreCachePattern ("x".toList) = none :=
  ⟨⟨by decide, by decide, by decide⟩,
    c9_predictor_regex.2.2.2.2 ("x".toList) (by decide) (by decide)
      (by decide)⟩

end TelegramStream
